import Mathlib

/-!
Verification of the minidns DNS server against its natural-language
specification.  The Rust sources are shallowly embedded: pure functions become
Lean functions, the stateful resolver becomes explicit state passing over a
`ServerState` record, machine integers become `Nat` with explicit `% 2^w`
where wrap-around matters, and fallible code returns `Except`/`Option`.

Conventions used throughout:
* bytes are `Nat` values (concrete inputs use values < 256, exactly the bytes
  the Rust code would see);
* the Rust `HashMap<u16, Rc<QueryData>>` is embedded as an association list
  with HashMap-extensional `insert` (replace-or-cons) and `remove` (filter);
  the server maintains key-uniqueness, under which both agree with `HashMap`;
* `String::from_utf8_lossy` followed by byte extraction is embedded ASCII
  faithfully: bytes < 128 are kept, any other byte is replaced by the UTF-8
  encoding of U+FFFD.  Every property proved here depends only on the facts
  that ASCII bytes survive the round trip unchanged and that non-ASCII input
  never produces ASCII output, which hold of the real lossy decoder as well.
-/

namespace Minidns

/-! ## Byte-buffer codec (src/bufutil.rs) -/

/-- Errors and results of `BytePacketBuffer::read_qname`.  The decoded name is
kept as the list of its labels (raw bytes, ASCII-lowercased); the Rust code
joins them with "." into the output string.  `eob` is the "End of buffer"
failure of `get`/`get_range`, `jumpsExceeded` the jump-limit failure; both
record the value of `jumps_performed` at the moment of failure so that the
jump budget can be stated. -/
inductive RqOut where
  | ok (labels : List (List Nat)) (finalPos : Nat)
  | eob (jumps : Nat)
  | jumpsExceeded (jumps : Nat)
  deriving DecidableEq, Repr

/-- ASCII lowercasing of one byte, the byte-level content of
`to_lowercase` on the lossily decoded label (non-ASCII bytes are left
untouched; no claim depends on their decoding). -/
def byte_lower (b : Nat) : Nat :=
  if 65 ≤ b ∧ b ≤ 90 then b + 32 else b

/-- MAX_JUMPS of `read_qname` (`let max_jumps = 5`). -/
def max_jumps : Nat := 5

/-- Loop body of `BytePacketBuffer::read_qname`, translated line by line from
src/bufutil.rs.  `buf` is the 512-byte array, `len` is `self.len`, `pos` the
local cursor, `jumped`/`jumps` the jump-tracking state, `selfPos` the value of
`self.pos` (updated by `seek` on the first jump), `labels` the accumulated
output.  The `fuel` argument only bounds the number of iterations; `none`
means fuel ran out (the termination theorem shows the chosen fuel never
does). -/
def read_qname_go (buf : List Nat) (len : Nat) :
    Nat → Nat → Bool → Nat → Nat → List (List Nat) → Option RqOut
  | 0, _, _, _, _, _ => none
  | fuel + 1, pos, jumped, jumps, selfPos, labels =>
    if jumps > max_jumps then
      some (.jumpsExceeded jumps)
    else if pos ≥ len then
      -- self.get(pos) fails with "End of buffer"
      some (.eob jumps)
    else
      let b := buf.getD pos 0
      if b &&& 0xC0 = 0xC0 then
        -- first jump advances the caller's cursor past the two-byte pointer
        let selfPos' := if jumped then selfPos else pos + 2
        if pos + 1 ≥ len then
          some (.eob jumps)
        else
          let b2 := buf.getD (pos + 1) 0
          let offset := ((b ^^^ 0xC0) <<< 8) ||| b2
          read_qname_go buf len fuel offset true (jumps + 1) selfPos' labels
      else
        let pos' := pos + 1
        if b = 0 then
          some (.ok labels (if jumped then selfPos else pos'))
        else
          -- get_range(pos', b) checks pos' + b - 1 < len
          if pos' + b - 1 ≥ len then
            some (.eob jumps)
          else
            let label := ((buf.drop pos').take b).map byte_lower
            read_qname_go buf len fuel (pos' + b) jumped jumps selfPos
              (labels ++ [label])

/-- Fuel that always suffices for `read_qname_go` (proved below). -/
def rq_fuel (len : Nat) : Nat := 8 * len + 8

/-- BytePacketBuffer::read_qname, entered at cursor `pos`. -/
def read_qname (buf : List Nat) (len pos : Nat) : Option RqOut :=
  read_qname_go buf len (rq_fuel len) pos false 0 pos []

/-- Errors of the write side of the codec. -/
inductive WqErr where
  | endOfBuffer
  | labelTooLong
  deriving DecidableEq, Repr

/-- Rust `str::split('.')` at byte level (the separator byte 46 never occurs
inside a multi-byte UTF-8 sequence, so splitting the bytes coincides with
splitting the string). -/
def split_on_byte (sep : Nat) : List Nat → List (List Nat)
  | [] => [[]]
  | b :: rest =>
    if b = sep then [] :: split_on_byte sep rest
    else
      match split_on_byte sep rest with
      | t :: ts => (b :: t) :: ts
      | [] => [[b]]

/-- Sequential byte store starting at `pos` (the inner `for b in label` loop
of `write_qname`). -/
def write_bytes (buf : List Nat) (pos : Nat) : List Nat → List Nat
  | [] => buf
  | b :: rest => write_bytes (buf.set pos b) (pos + 1) rest

/-- Label loop of `BytePacketBuffer::write_qname`: each label is stored as a
length byte followed by its bytes; a label longer than 0x34 bytes fails
(the source's guard `if len > 0x34`, whose error message claims a 63-byte
limit). -/
def write_labels (buf : List Nat) (pos : Nat) :
    List (List Nat) → Except WqErr (List Nat × Nat)
  | [] => .ok (buf, pos)
  | label :: rest =>
    if label.length > 0x34 then .error .labelTooLong
    else
      write_labels (write_bytes (buf.set pos label.length) (pos + 1) label)
        (pos + 1 + label.length) rest

/-- BytePacketBuffer::write_qname: capacity check `check_range(pos + qname.len())`,
then the label loop, then the terminating zero byte.  `qname` is the dotted
name as its bytes; the result is the updated buffer and cursor. -/
def write_qname (buf : List Nat) (selfPos selfLen : Nat) (qname : List Nat) :
    Except WqErr (List Nat × Nat) :=
  if selfPos + qname.length ≥ selfLen then .error .endOfBuffer
  else
    match write_labels buf selfPos (split_on_byte 46 qname) with
    | .error e => .error e
    | .ok (buf', pos') => .ok (buf'.set pos' 0, pos' + 1)

/-! ## MD5 (the md5 crate used by check_dyndns_md5, RFC 1321)

Words are `Nat` values kept below `2 ^ 32` by explicit reduction. -/

/-- Addition modulo 2^32. -/
def wadd (a b : Nat) : Nat := (a + b) % 4294967296

/-- Bitwise complement on 32-bit words. -/
def wnot (a : Nat) : Nat := a ^^^ 4294967295

/-- Left rotation of a 32-bit word. -/
def rotl (x s : Nat) : Nat :=
  (((x <<< s) % 4294967296) ||| (x >>> (32 - s)))

/-- Per-round constants K[i] = floor(2^32 * abs(sin(i+1))) of RFC 1321. -/
def md5K : List Nat :=
  [0xd76aa478, 0xe8c7b756, 0x242070db, 0xc1bdceee,
   0xf57c0faf, 0x4787c62a, 0xa8304613, 0xfd469501,
   0x698098d8, 0x8b44f7af, 0xffff5bb1, 0x895cd7be,
   0x6b901122, 0xfd987193, 0xa679438e, 0x49b40821,
   0xf61e2562, 0xc040b340, 0x265e5a51, 0xe9b6c7aa,
   0xd62f105d, 0x02441453, 0xd8a1e681, 0xe7d3fbc8,
   0x21e1cde6, 0xc33707d6, 0xf4d50d87, 0x455a14ed,
   0xa9e3e905, 0xfcefa3f8, 0x676f02d9, 0x8d2a4c8a,
   0xfffa3942, 0x8771f681, 0x6d9d6122, 0xfde5380c,
   0xa4beea44, 0x4bdecfa9, 0xf6bb4b60, 0xbebfbc70,
   0x289b7ec6, 0xeaa127fa, 0xd4ef3085, 0x04881d05,
   0xd9d4d039, 0xe6db99e5, 0x1fa27cf8, 0xc4ac5665,
   0xf4292244, 0x432aff97, 0xab9423a7, 0xfc93a039,
   0x655b59c3, 0x8f0ccc92, 0xffeff47d, 0x85845dd1,
   0x6fa87e4f, 0xfe2ce6e0, 0xa3014314, 0x4e0811a1,
   0xf7537e82, 0xbd3af235, 0x2ad7d2bb, 0xeb86d391]

/-- Per-round left-rotation amounts of RFC 1321. -/
def md5S : List Nat :=
  [7, 12, 17, 22, 7, 12, 17, 22, 7, 12, 17, 22, 7, 12, 17, 22,
   5, 9, 14, 20, 5, 9, 14, 20, 5, 9, 14, 20, 5, 9, 14, 20,
   4, 11, 16, 23, 4, 11, 16, 23, 4, 11, 16, 23, 4, 11, 16, 23,
   6, 10, 15, 21, 6, 10, 15, 21, 6, 10, 15, 21, 6, 10, 15, 21]

/-- Round function and message-word index of round `i`. -/
def md5Round (i b c d : Nat) : Nat × Nat :=
  if i < 16 then ((b &&& c) ||| (wnot b &&& d), i)
  else if i < 32 then ((d &&& b) ||| (wnot d &&& c), (5 * i + 1) % 16)
  else if i < 48 then (b ^^^ c ^^^ d, (3 * i + 5) % 16)
  else (c ^^^ (b ||| wnot d), (7 * i) % 16)

/-- Rounds over one 16-word chunk `m`: `n` rounds remaining, `i` the current
round index. -/
def md5RoundsGo (m : List Nat) :
    Nat → Nat → Nat × Nat × Nat × Nat → Nat × Nat × Nat × Nat
  | 0, _, st => st
  | n + 1, i, (a, b, c, d) =>
    let (f, g) := md5Round i b c d
    let f' := wadd (wadd (wadd f a) (md5K.getD i 0)) (m.getD g 0)
    md5RoundsGo m n (i + 1) (d, wadd b (rotl f' (md5S.getD i 0)), b, c)

/-- The 64 rounds over one 16-word chunk. -/
def md5Rounds (m : List Nat) (st : Nat × Nat × Nat × Nat) :
    Nat × Nat × Nat × Nat :=
  md5RoundsGo m 64 0 st

/-- Little-endian deserialization of `k` 32-bit words from a byte list. -/
def leWords : Nat → List Nat → List Nat
  | 0, _ => []
  | k + 1, bs =>
    (bs.getD 0 0 + 256 * bs.getD 1 0 + 65536 * bs.getD 2 0 +
      16777216 * bs.getD 3 0) :: leWords k (bs.drop 4)

/-- Digest of `k` padded 64-byte chunks. -/
def md5Chunks : Nat → List Nat → Nat × Nat × Nat × Nat → Nat × Nat × Nat × Nat
  | 0, _, st => st
  | k + 1, bs, (a0, b0, c0, d0) =>
    let m := leWords 16 (bs.take 64)
    let (a, b, c, d) := md5Rounds m (a0, b0, c0, d0)
    md5Chunks k (bs.drop 64) (wadd a0 a, wadd b0 b, wadd c0 c, wadd d0 d)

/-- Little-endian serialization of a 32-bit word into 4 bytes. -/
def leBytes4 (w : Nat) : List Nat :=
  [w % 256, w / 256 % 256, w / 65536 % 256, w / 16777216 % 256]

/-- Little-endian serialization of a 64-bit value into 8 bytes. -/
def leBytes8 (w : Nat) : List Nat :=
  leBytes4 (w % 4294967296) ++ leBytes4 (w / 4294967296 % 4294967296)

/-- RFC 1321 padding: 0x80, zeros to 56 mod 64, then the bit length mod 2^64. -/
def md5Pad (msg : List Nat) : List Nat :=
  let padLen := (55 + 64 - msg.length % 64) % 64 + 1
  msg ++ 128 :: List.replicate (padLen - 1) 0 ++
    leBytes8 (msg.length * 8 % 18446744073709551616)

/-- MD5 digest of a byte list, as its 16 bytes. -/
def md5 (msg : List Nat) : List Nat :=
  let padded := md5Pad msg
  let (a, b, c, d) :=
    md5Chunks (padded.length / 64) padded
      (0x67452301, 0xefcdab89, 0x98badcfe, 0x10325476)
  leBytes4 a ++ leBytes4 b ++ leBytes4 c ++ leBytes4 d

/-- Lowercase hexadecimal digit byte. -/
def hexDigit (n : Nat) : Nat := if n < 10 then 48 + n else 87 + n

/-- Lowercase hexadecimal rendering of a byte list (Rust `format!("{:x}", digest)`),
as ASCII bytes. -/
def hexBytes (bs : List Nat) : List Nat :=
  bs.flatMap (fun b => [hexDigit (b / 16), hexDigit (b % 16)])

/-- Digest text the dyndns handler compares against: lowercase hex MD5. -/
def md5hex (msg : List Nat) : List Nat := hexBytes (md5 msg)

/-! ## DNS message model (spec section 3; dnsutil.rs is not under src/) -/

/-- IPv4 address as its 32-bit value; 0 is 0.0.0.0. -/
abbrev Ipv4 := Nat

/-- IP address (the v6 payload is opaque; no claim inspects it). -/
inductive IpAddr where
  | v4 (a : Ipv4)
  | v6 (a : Nat)
  deriving DecidableEq, Repr

/-- Socket address: IP and port. -/
structure SockAddr where
  ip : IpAddr
  port : Nat
  deriving DecidableEq, Repr

/-- Response codes of the DNS header. -/
inductive ResultCode where
  | NOERROR
  | FORMERR
  | SERVFAIL
  | NXDOMAIN
  | NOTIMP
  | REFUSED
  deriving DecidableEq, Repr

/-- Query types. -/
inductive QueryType where
  | UNKNOWN (n : Nat)
  | A
  | NS
  | CNAME
  | MX
  | AAAA
  deriving DecidableEq, Repr

/-- Question entry: lowercased dotted name and query type. -/
structure DnsQuestion where
  name : String
  qtype : QueryType
  deriving DecidableEq, Repr

/-- Resource-record variants (spec section 3). -/
inductive DnsRecord where
  | A (domain : String) (addr : Ipv4) (ttl : Nat)
  | NS (domain host : String) (ttl : Nat)
  | CNAME (domain host : String) (ttl : Nat)
  | MX (domain : String) (priority : Nat) (host : String) (ttl : Nat)
  | AAAA (domain : String) (addr6 : Nat) (ttl : Nat)
  | UNKNOWN (domain : String) (qtype dataLen ttl : Nat)
  deriving DecidableEq, Repr

/-- Header fields the resolver reads (`response.header.id`,
`response.header.rescode`); the remaining flag bits and counts are not
consulted by any claim. -/
structure DnsHeader where
  id : Nat
  rescode : ResultCode
  deriving DecidableEq, Repr

/-- Parsed DNS packet: header plus the four ordered record sequences. -/
structure DnsPacket where
  header : DnsHeader
  questions : List DnsQuestion
  answers : List DnsRecord
  authorities : List DnsRecord
  resources : List DnsRecord
  deriving DecidableEq, Repr

/-- Modelled from the spec: glue lookup used by get_resolved_ns — the first A
record of the resources section whose domain equals `host` (dnsutil.rs is not
under src/; spec section 4.2). -/
def glue_for (host : String) : List DnsRecord → Option Ipv4
  | [] => none
  | .A d addr _ :: rest => if d = host then some addr else glue_for host rest
  | _ :: rest => glue_for host rest

/-- Modelled from the spec: DnsPacket::get_resolved_ns — scan the authorities
section for NS records whose domain is a suffix of `qname`; for each such NS
host return the first A glue from the resources section (tie-break:
authorities order, then resources order).  dnsutil.rs is not under src/. -/
def get_resolved_ns_go (resources : List DnsRecord) (qname : String) :
    List DnsRecord → Option Ipv4
  | [] => none
  | .NS dom host _ :: rest =>
    if dom.data.isSuffixOf qname.data then
      match glue_for host resources with
      | some a => some a
      | none => get_resolved_ns_go resources qname rest
    else get_resolved_ns_go resources qname rest
  | _ :: rest => get_resolved_ns_go resources qname rest

/-- Modelled from the spec: DnsPacket::get_resolved_ns (see
`get_resolved_ns_go`). -/
def get_resolved_ns (p : DnsPacket) (qname : String) : Option Ipv4 :=
  get_resolved_ns_go p.resources qname p.authorities

/-- Modelled from the spec: DnsPacket::get_unresolved_ns — as
get_resolved_ns, but returns the NS host name when no A glue is present
(dnsutil.rs is not under src/; spec section 4.2). -/
def get_unresolved_ns_go (resources : List DnsRecord) (qname : String) :
    List DnsRecord → Option String
  | [] => none
  | .NS dom host _ :: rest =>
    if dom.data.isSuffixOf qname.data then
      match glue_for host resources with
      | some _ => get_unresolved_ns_go resources qname rest
      | none => some host
    else get_unresolved_ns_go resources qname rest
  | _ :: rest => get_unresolved_ns_go resources qname rest

/-- Modelled from the spec: DnsPacket::get_unresolved_ns (see
`get_unresolved_ns_go`). -/
def get_unresolved_ns (p : DnsPacket) (qname : String) : Option String :=
  get_unresolved_ns_go p.resources qname p.authorities

/-! ## Resolver state (src/dnsserver.rs) -/

/-- QUERY_TIMEOUT (seconds). -/
def QUERY_TIMEOUT : Nat := 10

/-- MAX_FORWARD_COUNT: hop limit of a resolution chain. -/
def MAX_FORWARD_COUNT : Nat := 10

/-- MAX_QUERIES_LEN: cap of the pending-query table. -/
def MAX_QUERIES_LEN : Nat := 4096

/-- QueryData of src/dnsserver.rs.  `count` is the `Cell<u8>` hop counter as a
plain field: in the source every live table entry owns its `Rc` exclusively
(records are removed before their counter is touched and re-inserted after),
so interior mutability never aliases across entries. -/
structure QueryData where
  id : Nat
  addr : SockAddr
  question : DnsQuestion
  forword : Nat
  expire : Nat
  count : Nat
  deriving DecidableEq, Repr

/-- The pending-query table `HashMap<u16, Rc<QueryData>>` as an association
list. -/
abbrev Queries := List (Nat × QueryData)

/-- HashMap::get on the embedded table. -/
def qfind (k : Nat) : Queries → Option QueryData
  | [] => none
  | p :: rest => if p.1 = k then some p.2 else qfind k rest

/-- HashMap::insert on the embedded table: replace the binding if the key is
present, otherwise add it. -/
def qinsert (k : Nat) (v : QueryData) (qs : Queries) : Queries :=
  if (qfind k qs).isSome then
    qs.map (fun p => if p.1 = k then (k, v) else p)
  else (k, v) :: qs

/-- HashMap::remove on the embedded table. -/
def qremove (k : Nat) (qs : Queries) : Queries :=
  qs.filter (fun p => decide (p.1 ≠ k))

/-- Host-table lookup (HashMap::get on `hosts`). -/
def hfind (name : String) : List (String × Ipv4) → Option Ipv4
  | [] => none
  | p :: rest => if p.1 = name then some p.2 else hfind name rest

/-- Host-table insert with overwrite (HashMap::insert on `hosts`). -/
def hinsert (name : String) (ip : Ipv4) (hs : List (String × Ipv4)) :
    List (String × Ipv4) :=
  if (hfind name hs).isSome then
    hs.map (fun p => if p.1 = name then (name, ip) else p)
  else (name, ip) :: hs

/-- Mutable state of DnsServer together with its startup configuration
(`up_dns_addr`, `ttl`, `key` never change after `create`). -/
structure ServerState where
  queries : Queries
  curr_req_id : Nat
  hosts : List (String × Ipv4)
  up_dns_addr : IpAddr
  ttl : Nat
  key : List Nat

/-- Externally visible sends of one handler call: a DNS response through the
server socket, or an upstream query (to port 53 of `dest`) through the
upstream socket.  A `respond` records the fields `DnsServer::response` puts in
the packet: rescode, destination, the client id, the echoed question and the
answers (`None` answers become the empty list — the packet carries no answer
records in either case). -/
inductive Action where
  | respond (code : ResultCode) (dest : SockAddr) (clientId : Nat)
      (question : DnsQuestion) (answers : List DnsRecord)
  | sendUpstream (dest : IpAddr) (reqId : Nat) (question : DnsQuestion)
  deriving DecidableEq, Repr

/-- DnsServer::next_req_id: wrapping 16-bit increment, returning the new
counter value. -/
def next_req_id (s : ServerState) : ServerState × Nat :=
  let id := (s.curr_req_id + 1) % 65536
  ({ s with curr_req_id := id }, id)

/-- DnsServer::local_lookup. -/
def local_lookup (s : ServerState) (qname : String) : Option DnsRecord :=
  match hfind qname s.hosts with
  | some addr => some (.A qname addr s.ttl)
  | none => none

/-- DnsServer::handle_query. -/
def handle_query (s : ServerState) (query : QueryData) :
    ServerState × List Action :=
  match local_lookup s query.question.name with
  | some rec =>
    (s, [.respond .NOERROR query.addr query.id query.question [rec]])
  | none =>
    if s.up_dns_addr = .v4 0 then
      (s, [.respond .NXDOMAIN query.addr query.id query.question []])
    else if s.queries.length < MAX_QUERIES_LEN then
      let (s1, req_id) := next_req_id s
      ({ s1 with queries := qinsert req_id query s1.queries },
        [.sendUpstream s.up_dns_addr req_id query.question])
    else
      (s, [.respond .REFUSED query.addr query.id query.question []])

/-- Loop of DnsServer::remove_recursive_query.  The fuel bounds iterations
only: every iteration removes one present entry, so `|qs| + 1` iterations can
never be exhausted, mirroring why the Rust loop terminates. -/
def remove_rec_go : Nat → Nat → Queries → Option QueryData × Queries
  | 0, _, qs => (none, qs)
  | fuel + 1, id, qs =>
    match qfind id qs with
    | none => (none, qs)
    | some x =>
      let qs' := qremove id qs
      if x.forword > 0 then remove_rec_go fuel x.forword qs'
      else (some x, qs')

/-- DnsServer::remove_recursive_query. -/
def remove_recursive_query (id : Nat) (qs : Queries) :
    Option QueryData × Queries :=
  remove_rec_go (qs.length + 1) id qs

/-- DnsServer::handle_response, translated branch for branch from
src/dnsserver.rs lines 216-290.  Branches in which the Rust function returns
`Err` (logged by the caller, no packet sent) produce an empty action list. -/
def handle_response (s : ServerState) (response : DnsPacket) (now : Nat) :
    ServerState × List Action :=
  match qfind response.header.id s.queries with
  | none => (s, [])
  | some query =>
    let s := { s with queries := qremove response.header.id s.queries }
    if response.answers ≠ [] ∧ response.header.rescode = .NOERROR then
      if query.forword = 0 then
        (s, [.respond response.header.rescode query.addr query.id
              query.question response.answers])
      else
        match qfind query.forword s.queries with
        | some up_query =>
          match response.answers with
          | .A _ addr _ :: _ =>
            (s, [.sendUpstream (.v4 addr) query.forword up_query.question])
          | _ =>
            -- Err("dns server address is not ipv4") after removing the chain
            ({ s with queries := (remove_recursive_query query.forword s.queries).2 }, [])
        | none => (s, [])  -- Err("parent query record not found")
    else if response.header.rescode = .NXDOMAIN then
      if query.forword = 0 then
        (s, [.respond response.header.rescode query.addr query.id
              query.question response.answers])
      else
        match remove_recursive_query query.forword s.queries with
        | (some top_query, qs') =>
          ({ s with queries := qs' },
            [.respond response.header.rescode top_query.addr top_query.id
              top_query.question response.answers])
        | (none, qs') =>
          ({ s with queries := qs' }, [])  -- Err("top query record not found")
    else if query.count > MAX_FORWARD_COUNT then
      (s, [.respond .REFUSED query.addr query.id query.question []])
    else
      match get_resolved_ns response query.question.name with
      | some new_ns =>
        let query' := { query with count := query.count + 1 }
        ({ s with queries := qinsert response.header.id query' s.queries },
          [.sendUpstream (.v4 new_ns) response.header.id query.question])
      | none =>
        match get_unresolved_ns response query.question.name with
        | none =>
          (s, [.respond .REFUSED query.addr query.id query.question []])
        | some new_ns_name =>
          let new_query : QueryData :=
            { id := 0, addr := ⟨.v4 0, 0⟩,
              question := { name := new_ns_name, qtype := .A },
              forword := response.header.id,
              expire := now + QUERY_TIMEOUT,
              count := query.count + 1 }
          let (s1, new_req_id) := next_req_id s
          let qs' := qinsert new_req_id new_query
            (qinsert response.header.id query s1.queries)
          ({ s1 with queries := qs' },
            [.sendUpstream s.up_dns_addr new_req_id new_query.question])

/-- DnsServer::clear_queries_of_timeout: retain entries with `now ≤ expire`. -/
def clear_queries_of_timeout (s : ServerState) (now : Nat) : ServerState :=
  { s with queries := s.queries.filter (fun p => decide (now ≤ p.2.expire)) }

/-- QueryData built by server_recv for a freshly arrived client query:
client id and address, the popped question, `forword = 0`, `count = 0`,
expiry `now + QUERY_TIMEOUT`. -/
def client_query_record (hdrId : Nat) (src : SockAddr) (q : DnsQuestion)
    (now : Nat) : QueryData :=
  { id := hdrId, addr := src, question := q, forword := 0,
    expire := now + QUERY_TIMEOUT, count := 0 }

/-- DNS half of DnsServer::server_recv on one successfully parsed packet:
`request.questions.pop()` takes the LAST element of the question sequence; a
packet without questions is only logged (no record, no reply). -/
def server_recv_dns (s : ServerState) (packet : DnsPacket) (src : SockAddr)
    (now : Nat) : ServerState × List Action :=
  match packet.questions.getLast? with
  | some question =>
    handle_query s (client_query_record packet.header.id src question now)
  | none => (s, [])

/-- DnsServer::client_recv on one upstream datagram.  The Rust code discards
the sender returned by `recv_from` (the `_` in `let (packet_size, _)`);
accordingly the `srcAddr` argument is unused.  `parsed` is the outcome of
`DnsPacket::from_buffer` on the datagram's bytes (a parse failure is logged
and dropped). -/
def client_recv (s : ServerState) (parsed : Option DnsPacket)
    (srcAddr : SockAddr) (now : Nat) : ServerState × List Action :=
  match parsed with
  | some p => handle_response s p now
  | none => (s, [])

/-! ## Dynamic-update handler (DnsServer::dyn_dns) -/

/-- C_2023_01_01: epoch base of the replay window. -/
def C_2023_01_01 : Nat := 1672531200

/-- C_DNYDNS_MAGIC: the bytes of "kdns" (source spelling kept). -/
def C_DNYDNS_MAGIC : List Nat := [107, 100, 110, 115]

/-- C_DYNDNS_MIN_LEN, written as the source writes it:
4 + 1 + 32 + 1 + 1 + 1 + 1 + 1 + 7. -/
def C_DYNDNS_MIN_LEN : Nat := 4 + 1 + 32 + 1 + 1 + 1 + 1 + 1 + 7

/-- C_DYNDNS_PARAM_COUNT. -/
def C_DYNDNS_PARAM_COUNT : Nat := 5

/-- C_DYNDNS_TIME_RANGE (seconds). -/
def C_DYNDNS_TIME_RANGE : Nat := 60 * 10

/-- UTF-8 re-encoding of the lossily decoded bytes
(`String::from_utf8_lossy` followed by `.as_bytes()`): ASCII bytes survive
unchanged, any non-ASCII byte becomes the three UTF-8 bytes of U+FFFD.  (The
real decoder keeps valid multi-byte sequences and merges maximal invalid
subparts; both behaviours agree on everything any claim depends on: ASCII is
preserved and non-ASCII input never yields ASCII output.) -/
def reenc (bs : List Nat) : List Nat :=
  bs.flatMap (fun b => if b < 128 then [b] else [239, 191, 189])

/-- Lossily decoded string (same abstraction as `reenc`), used as host-table
key by `register_host`. -/
def lossy_string (bs : List Nat) : String :=
  String.mk (bs.map (fun b => if b < 128 then Char.ofNat b else Char.ofNat 0xFFFD))

/-- Rust `u64::from_str`: optional leading '+', one or more ASCII digits, and
the value must fit in 64 bits. -/
def parse_u64 (bs : List Nat) : Option Nat :=
  let ds := match bs with
    | 43 :: rest => rest
    | _ => bs
  if ds = [] then none
  else if ds.all (fun b => decide (48 ≤ b ∧ b ≤ 57)) then
    let v := ds.foldl (fun acc b => acc * 10 + (b - 48)) 0
    if v < 18446744073709551616 then some v else none
  else none

/-- One octet of Rust `Ipv4Addr::from_str`: 1-3 ASCII digits, no leading
zero, value at most 255. -/
def parse_octet (bs : List Nat) : Option Nat :=
  if bs = [] then none
  else if bs.all (fun b => decide (48 ≤ b ∧ b ≤ 57)) then
    if bs.length > 3 then none
    else if bs.length > 1 ∧ bs.headD 0 = 48 then none
    else
      let v := bs.foldl (fun acc b => acc * 10 + (b - 48)) 0
      if v ≤ 255 then some v else none
  else none

/-- Rust `Ipv4Addr::from_str`: exactly four octets separated by dots. -/
def parse_ipv4 (bs : List Nat) : Option Ipv4 :=
  match split_on_byte 46 bs with
  | [a, b, c, d] =>
    match parse_octet a, parse_octet b, parse_octet c, parse_octet d with
    | some oa, some ob, some oc, some od =>
      some (((oa * 256 + ob) * 256 + oc) * 256 + od)
    | _, _, _, _ => none
  | _ => none

/-- Decimal ASCII rendering of a number. -/
def dec_bytes (n : Nat) : List Nat := (Nat.toDigits 10 n).map Char.toNat

/-- Textual rendering of an IP address (`rep_addr.ip().to_string()`).  For v4
the canonical dotted quad; a v6 rendering always contains ':' — the only
property used of it is that `parse_ipv4` rejects it, as it rejects the real
textual form of any v6 address. -/
def ip_to_string_bytes : IpAddr → List Nat
  | .v4 a =>
    dec_bytes (a / 16777216 % 256) ++ 46 :: dec_bytes (a / 65536 % 256) ++
      46 :: dec_bytes (a / 256 % 256) ++ 46 :: dec_bytes (a % 256)
  | .v6 a => 58 :: dec_bytes a

/-- DnsServer::register_host: parse the IP text, then insert (a parse failure
is the Rust `?`, leaving the table untouched). -/
def register_host (hosts : List (String × Ipv4)) (host : String)
    (ipBs : List Nat) : Option (List (String × Ipv4)) :=
  match parse_ipv4 ipBs with
  | some ip => some (hinsert host ip hosts)
  | none => none

/-- check_dyndns_md5: digest token compared against the lowercase hex MD5 of
id ++ host ++ ip ++ key (consumed in that order).  Token bytes pass through
the lossy decode / re-encode of the surrounding `String` handling. -/
def check_dyndns_md5 (params : List (List Nat)) (key : List Nat) : Bool :=
  reenc (params.getD 1 []) ==
    md5hex (reenc (params.getD 2 []) ++ reenc (params.getD 3 []) ++
      reenc (params.getD 4 []) ++ key)

/-- check_dyndns_time on an already parsed id: the id must lie within
C_DYNDNS_TIME_RANGE of `now - C_2023_01_01`.  (`Nat` subtraction truncates;
the Rust u64 subtraction panics if `now` is before 2023-01-01, so theorems
touching this path assume a sane clock.) -/
def check_dyndns_time (id_num now : Nat) : Bool :=
  let delta := now - C_2023_01_01
  id_num ≤ delta + C_DYNDNS_TIME_RANGE && delta - C_DYNDNS_TIME_RANGE ≤ id_num

/-- The literal reply "error". -/
def error_bytes : List Nat := [101, 114, 114, 111, 114]

/-- Outcome of DnsServer::dyn_dns: `notDyn` is `Ok(false)` (fall through to
DNS parsing), `handled` is `Ok(true)` (datagram consumed, with the resulting
host table and the replies sent), `errored` is `Err(_)` (the `?` on id
parsing or on `register_host`; nothing has been sent at either site and the
host table is unchanged). -/
inductive DynOut where
  | notDyn
  | handled (hosts : List (String × Ipv4)) (replies : List (List Nat × SockAddr))
  | errored (hosts : List (String × Ipv4)) (replies : List (List Nat × SockAddr))
  deriving DecidableEq, Repr

/-- Body of DnsServer::dyn_dns after the magic/length guard (src/dnsserver.rs
lines 380-421). Tokens are the datagram's bytes split on ' ' (byte 32); where
the source routes them through `String::from_utf8_lossy`, the token bytes
pass through `reenc`. -/
def dyn_dns_body (key : List Nat) (hosts : List (String × Ipv4))
    (pkt : List Nat) (rep_addr : SockAddr) (now : Nat) : DynOut :=
  let params := split_on_byte 32 pkt
  if params.length < C_DYNDNS_PARAM_COUNT then
      .handled hosts [(error_bytes, rep_addr)]
    else if ¬ check_dyndns_md5 params key then
      .handled hosts [(error_bytes, rep_addr)]
    else
      match parse_u64 (reenc (params.getD 2 [])) with
      | none => .errored hosts []
      | some id_num =>
        if ¬ check_dyndns_time id_num now then
          .handled hosts [(error_bytes, rep_addr)]
        else
          let ipTok := reenc (params.getD 4 [])
          let ipBs :=
            if ipTok = [48, 46, 48, 46, 48, 46, 48] then
              ip_to_string_bytes rep_addr.ip
            else ipTok
          match register_host hosts (lossy_string (reenc (params.getD 3 []))) ipBs with
          | none => .errored hosts []
          | some hosts' =>
            .handled hosts'
              [(reenc (params.getD 3 []) ++ 32 :: ipBs, rep_addr)]

/-- DnsServer::dyn_dns (src/dnsserver.rs lines 374-422): the early `Ok(false)`
return when the datagram is shorter than C_DYNDNS_MIN_LEN or does not start
with the magic, otherwise the body. -/
def dyn_dns (key : List Nat) (hosts : List (String × Ipv4)) (pkt : List Nat)
    (rep_addr : SockAddr) (now : Nat) : DynOut :=
  if pkt.length < C_DYNDNS_MIN_LEN ∨ pkt.take 4 ≠ C_DNYDNS_MAGIC then
    .notDyn
  else
    dyn_dns_body key hosts pkt rep_addr now

/-- Dyndns dispatch of DnsServer::server_recv (src/dnsserver.rs lines
117-123) on one datagram: the returned Bool says whether execution falls
through to `DnsPacket::from_buffer` — it does on `Ok(false)` and, because the
`Err` arm only logs, also on `Err(_)`. -/
def server_recv_dyndns (s : ServerState) (pkt : List Nat) (src : SockAddr)
    (now : Nat) : ServerState × List (List Nat × SockAddr) × Bool :=
  match dyn_dns s.key s.hosts pkt src now with
  | .notDyn => (s, [], true)
  | .handled hosts' replies => ({ s with hosts := hosts' }, replies, false)
  | .errored hosts' replies => ({ s with hosts := hosts' }, replies, true)

/-! ## Reachable server states

One constructor per way the event loop can touch the state: a client query
(the DNS half of server_recv on one parsed packet), an upstream datagram
(client_recv; the sender is unauthenticated, so an arbitrary packet), the
timeout sweep, and a host-table update (startup `register_host` or a
successful dynamic update — both only insert into `hosts`). -/
inductive Reachable : ServerState → Prop where
  | init (up : IpAddr) (ttl : Nat) (key : List Nat) :
      Reachable ⟨[], 0, [], up, ttl, key⟩
  | clientQuery {s} (hdrId : Nat) (src : SockAddr) (q : DnsQuestion) (now : Nat) :
      Reachable s →
      Reachable (handle_query s (client_query_record hdrId src q now)).1
  | upstreamResponse {s} (resp : DnsPacket) (now : Nat) :
      Reachable s → Reachable (handle_response s resp now).1
  | sweep {s} (now : Nat) : Reachable s → Reachable (clear_queries_of_timeout s now)
  | hostUpdate {s} (h : String) (ip : Ipv4) :
      Reachable s → Reachable { s with hosts := hinsert h ip s.hosts }

/-! ## Concrete inputs used by witnesses and counterexamples -/

/-- Bytes of an ASCII string. -/
def str_bytes (s : String) : List Nat := s.toList.map Char.toNat

/-- Number of upstream sends among a handler call's actions. -/
def send_count (as : List Action) : Nat :=
  as.countP (fun a => match a with
    | .sendUpstream _ _ _ => true
    | _ => false)

/-- The server state right after `create`: no pending queries, counter 0, no
hosts; upstream 0.0.0.99 (an arbitrary configured parent), ttl 60, key "k". -/
def s_init : ServerState := ⟨[], 0, [], .v4 99, 60, str_bytes "k"⟩

/-- The client endpoint used in traces. -/
def cl_addr : SockAddr := ⟨.v4 5, 1000⟩

/-- A fresh top-level client query record (client id 7, question a.com A). -/
def base_query : QueryData := client_query_record 7 cl_addr ⟨"a.com", .A⟩ 100

/-- State after `n` identical client queries starting from `s_init`. -/
def fill_state : Nat → ServerState
  | 0 => s_init
  | n + 1 => (handle_query (fill_state n) base_query).1

/-- Explicit form of the pending table of `fill_state n`:
keys n, n-1, ..., 1, each bound to `base_query`. -/
def eqs : Nat → Queries
  | 0 => []
  | n + 1 => (n + 1, base_query) :: eqs n

/-- Upstream reply with an NS referral and no glue (empty answers, NOERROR,
authority NS com -> ns.x), addressed to pending id 1. -/
def resp_c1 : DnsPacket := ⟨⟨1, .NOERROR⟩, [], [], [.NS "com" "ns.x" 60], []⟩

/-- Upstream reply with a resolved NS referral (glue present): empty answers,
NOERROR, authority NS com -> ns.x, resource A ns.x -> 777. -/
def resp_res : DnsPacket :=
  ⟨⟨1, .NOERROR⟩, [], [], [.NS "com" "ns.x" 60], [.A "ns.x" 777 60]⟩

/-- One resolution chain: the client query (one send), then `n` resolved-NS
referral replies; the second component counts the upstream sends so far. -/
def chain_trace : Nat → ServerState × Nat
  | 0 =>
    let (s, as) := handle_query s_init base_query
    (s, send_count as)
  | n + 1 =>
    let (s, c) := chain_trace n
    let (s', as) := handle_response s resp_res 100
    (s', c + send_count as)

/-- A 512-byte packet whose first label byte is a compressed pointer to
offset 0: the pointer chain loops forever. -/
def cyc_buf : List Nat := 192 :: 0 :: List.replicate 510 0

/-- A dotted name consisting of a single 53-byte label. -/
def qname53 : List Nat := List.replicate 53 97

/-- An all-zero 512-byte buffer. -/
def buf512 : List Nat := List.replicate 512 0

/-- A server state whose request-id counter has reached 65535. -/
def s65535 : ServerState := ⟨[], 65535, [], .v4 99, 60, str_bytes "k"⟩

/-- State after `k` calls of next_req_id. -/
def server_after_allocs (s : ServerState) : Nat → ServerState
  | 0 => s
  | k + 1 => (next_req_id (server_after_allocs s k)).1

/-- Two distinct questions and a parsed client packet carrying both. -/
def q_first : DnsQuestion := ⟨"first.example", .A⟩

/-- Second question of the two-question packet. -/
def q_last : DnsQuestion := ⟨"last.example", .A⟩

/-- A parsed downstream packet (client id 5) with two questions. -/
def pkt_two : DnsPacket := ⟨⟨5, .NOERROR⟩, [q_first, q_last], [], [], []⟩

/-- A 49-byte datagram starting with "kdns" ("kdns" plus 45 'x' bytes). -/
def pkt49 : List Nat := str_bytes "kdns" ++ List.replicate 45 120

/-- A dyndns datagram with the correct digest for key "k" but an unparseable
id token "zz" (the digest is md5hex of "zz" ++ "h" ++ "1.2.3.4" ++ "k"). -/
def pkt_err_id : List Nat :=
  str_bytes "kdns 351115b65a4edeecd66f1778149d19d8 zz h 1.2.3.4"

/-- A dyndns datagram whose digest token (all zeros) does not match any
md5hex value of its other tokens. -/
def pkt_bad_digest : List Nat :=
  str_bytes "kdns 00000000000000000000000000000000 1000 h 1.2.3.4"

/-- A client source address for dyndns packets. -/
def src0 : SockAddr := ⟨.v4 5, 9⟩

/-- A full pending table: 4096 entries (all under key 1 is irrelevant — only
the length is consulted by the cap check). -/
def s_full : ServerState :=
  ⟨List.replicate 4096 (1, base_query), 0, [], .v4 99, 60, str_bytes "k"⟩

/-- A pending record whose hop counter has passed MAX_FORWARD_COUNT. -/
def hot_query : QueryData := { base_query with count := 11 }

/-- A state holding `hot_query` under id 1. -/
def s_hot : ServerState := ⟨[(1, hot_query)], 1, [], .v4 99, 60, str_bytes "k"⟩

/-- An upstream failure reply (SERVFAIL, no answers) for id 1. -/
def resp_fail : DnsPacket := ⟨⟨1, .SERVFAIL⟩, [], [], [], []⟩

/-- A state holding the single fresh record `base_query` under id 1. -/
def s_one : ServerState := ⟨[(1, base_query)], 1, [], .v4 99, 60, str_bytes "k"⟩

/-! ## Lemmas about the embedded pending-query table -/

theorem qfind_nil (k : Nat) : qfind k ([] : Queries) = none := rfl

theorem qfind_cons (k : Nat) (p : Nat × QueryData) (qs : Queries) :
    qfind k (p :: qs) = if p.1 = k then some p.2 else qfind k qs := rfl

theorem qremove_nil (k : Nat) : qremove k ([] : Queries) = [] := rfl

theorem qremove_cons (k : Nat) (p : Nat × QueryData) (qs : Queries) :
    qremove k (p :: qs) =
      if p.1 = k then qremove k qs else p :: qremove k qs := by
  unfold qremove
  rw [List.filter_cons]
  by_cases h : p.1 = k <;> simp [h]

theorem qfind_map_replace_of_some (k : Nat) (v w : QueryData) :
    ∀ qs : Queries, qfind k qs = some w →
      qfind k (qs.map (fun p => if p.1 = k then (k, v) else p)) = some v := by
  intro qs
  induction qs with
  | nil => intro h; exact absurd h (by simp [qfind])
  | cons p rest ih =>
    intro h
    rw [qfind_cons] at h
    rw [List.map_cons]
    by_cases hk : p.1 = k
    · rw [if_pos hk, qfind_cons, if_pos rfl]
    · rw [if_neg hk] at h
      rw [if_neg hk, qfind_cons, if_neg hk]
      exact ih h

theorem qfind_qinsert_self (k : Nat) (v : QueryData) (qs : Queries) :
    qfind k (qinsert k v qs) = some v := by
  unfold qinsert
  cases h : qfind k qs with
  | none => simp [h, qfind_cons]
  | some w =>
    simp only [h, Option.isSome_some, if_pos]
    exact qfind_map_replace_of_some k v w qs h

theorem qfind_map_replace_ne (k j : Nat) (v : QueryData) (hkj : k ≠ j) :
    ∀ qs : Queries,
      qfind j (qs.map (fun p => if p.1 = k then (k, v) else p)) = qfind j qs := by
  intro qs
  induction qs with
  | nil => rfl
  | cons p rest ih =>
    rw [List.map_cons, qfind_cons]
    by_cases hk : p.1 = k
    · rw [if_pos hk]
      have h1 : (k, v).1 = j ↔ False := by simp [hkj]
      have h2 : p.1 = j ↔ False := by simp [hk ▸ hkj]
      rw [qfind_cons, if_neg (by simpa using h1), if_neg (by simpa using h2), ih]
    · rw [if_neg hk, qfind_cons, ih]

theorem qfind_qinsert_ne (k j : Nat) (v : QueryData) (qs : Queries)
    (hkj : k ≠ j) : qfind j (qinsert k v qs) = qfind j qs := by
  unfold qinsert
  split
  · exact qfind_map_replace_ne k j v hkj qs
  · rw [qfind_cons]
    exact if_neg (by simpa using hkj)

theorem qfind_qremove_self (k : Nat) (qs : Queries) :
    qfind k (qremove k qs) = none := by
  induction qs with
  | nil => rfl
  | cons p rest ih =>
    rw [qremove_cons]
    by_cases hk : p.1 = k
    · rw [if_pos hk]; exact ih
    · rw [if_neg hk, qfind_cons, if_neg hk]; exact ih

theorem qfind_qremove_ne (k j : Nat) (qs : Queries) (hkj : k ≠ j) :
    qfind j (qremove k qs) = qfind j qs := by
  induction qs with
  | nil => rfl
  | cons p rest ih =>
    rw [qremove_cons, qfind_cons]
    by_cases hk : p.1 = k
    · rw [if_pos hk, if_neg (hk ▸ hkj), ih]
    · rw [if_neg hk, qfind_cons, ih]

theorem qfind_qremove_some (k j : Nat) (qs : Queries) (r : QueryData)
    (h : qfind j (qremove k qs) = some r) : qfind j qs = some r := by
  by_cases hkj : k = j
  · subst hkj; rw [qfind_qremove_self] at h; exact absurd h (by simp)
  · rwa [qfind_qremove_ne k j qs hkj] at h

theorem qinsert_length_absent (k : Nat) (v : QueryData) (qs : Queries)
    (h : qfind k qs = none) : (qinsert k v qs).length = qs.length + 1 := by
  unfold qinsert
  simp [h]

theorem qinsert_length_le (k : Nat) (v : QueryData) (qs : Queries) :
    (qinsert k v qs).length ≤ qs.length + 1 := by
  unfold qinsert
  split
  · simp
  · simp

theorem remove_rec_go_subset :
    ∀ (fuel i : Nat) (qs : Queries) (j : Nat) (r : QueryData),
      qfind j (remove_rec_go fuel i qs).2 = some r → qfind j qs = some r := by
  intro fuel
  induction fuel with
  | zero => intro i qs j r h; exact h
  | succ fuel ih =>
    intro i qs j r h
    unfold remove_rec_go at h
    cases hf : qfind i qs with
    | none => rw [hf] at h; exact h
    | some x =>
      rw [hf] at h
      dsimp only at h
      by_cases hfw : x.forword > 0
      · rw [if_pos hfw] at h
        exact qfind_qremove_some i j qs r (ih x.forword (qremove i qs) j r h)
      · rw [if_neg hfw] at h
        exact qfind_qremove_some i j qs r h

/-! ## C4: termination and jump budget of read_qname -/

theorem read_qname_go_ne_none (buf : List Nat) (len : Nat) :
    ∀ (fuel pos : Nat) (jumped : Bool) (jumps selfPos : Nat)
      (labels : List (List Nat)),
      (7 - jumps) * (len + 1) + (len - pos) < fuel →
      read_qname_go buf len fuel pos jumped jumps selfPos labels ≠ none := by
  intro fuel
  induction fuel with
  | zero => intro pos jumped jumps selfPos labels h; omega
  | succ fuel ih =>
    intro pos jumped jumps selfPos labels h
    simp only [read_qname_go]
    by_cases h1 : jumps > max_jumps
    · rw [if_pos h1]; exact Option.some_ne_none _
    rw [if_neg h1]
    by_cases h2 : pos ≥ len
    · rw [if_pos h2]; exact Option.some_ne_none _
    rw [if_neg h2]
    by_cases h3 : buf.getD pos 0 &&& 0xC0 = 0xC0
    · rw [if_pos h3]
      by_cases h4 : pos + 1 ≥ len
      · rw [if_pos h4]; exact Option.some_ne_none _
      · rw [if_neg h4]
        -- pointer jump: the jump budget strictly decreases
        apply ih
        have hj : jumps ≤ 5 := by simpa [max_jumps] using h1
        have e1 : 7 - (jumps + 1) = (7 - jumps) - 1 := by omega
        rw [e1, Nat.sub_mul, one_mul]
        have e2 : 2 * (len + 1) ≤ (7 - jumps) * (len + 1) :=
          Nat.mul_le_mul_right _ (by omega)
        generalize (7 - jumps) * (len + 1) = t at h e2 ⊢
        omega
    · rw [if_neg h3]
      by_cases h5 : buf.getD pos 0 = 0
      · rw [if_pos h5]; exact Option.some_ne_none _
      · rw [if_neg h5]
        by_cases h6 : pos + 1 + buf.getD pos 0 - 1 ≥ len
        · rw [if_pos h6]; exact Option.some_ne_none _
        · rw [if_neg h6]
          -- plain label: the cursor strictly advances
          apply ih
          have hp : pos < len := by omega
          generalize (7 - jumps) * (len + 1) = t at h ⊢
          omega

theorem read_qname_go_jumps_six (buf : List Nat) (len : Nat) :
    ∀ (fuel pos : Nat) (jumped : Bool) (jumps selfPos : Nat)
      (labels : List (List Nat)) (j : Nat),
      jumps ≤ 6 →
      read_qname_go buf len fuel pos jumped jumps selfPos labels =
        some (.jumpsExceeded j) →
      j = 6 := by
  intro fuel
  induction fuel with
  | zero =>
    intro pos jumped jumps selfPos labels j hle h
    simp [read_qname_go] at h
  | succ fuel ih =>
    intro pos jumped jumps selfPos labels j hle h
    simp only [read_qname_go] at h
    by_cases h1 : jumps > max_jumps
    · rw [if_pos h1] at h
      have hj : jumps = j := by simpa using h
      have h5 : 5 < jumps := by simpa [max_jumps] using h1
      omega
    rw [if_neg h1] at h
    by_cases h2 : pos ≥ len
    · rw [if_pos h2] at h; simp at h
    rw [if_neg h2] at h
    by_cases h3 : buf.getD pos 0 &&& 0xC0 = 0xC0
    · rw [if_pos h3] at h
      by_cases h4 : pos + 1 ≥ len
      · rw [if_pos h4] at h; simp at h
      · rw [if_neg h4] at h
        refine ih _ _ _ _ _ _ ?_ h
        simp only [max_jumps, gt_iff_lt, not_lt] at h1
        omega
    · rw [if_neg h3] at h
      by_cases h5 : buf.getD pos 0 = 0
      · rw [if_pos h5] at h; simp at h
      · rw [if_neg h5] at h
        by_cases h6 : pos + 1 + buf.getD pos 0 - 1 ≥ len
        · rw [if_pos h6] at h; simp at h
        · rw [if_neg h6] at h
          exact ih _ _ _ _ _ _ hle h

/-- C4 (amended): for every input buffer the label reader terminates — the
fuel `rq_fuel len` is never exhausted — and whenever it fails with
JumpsExceeded it has performed exactly 6 = MAX_JUMPS + 1 pointer jumps (the
guard fires when `jumps_performed` passes 5), never more. -/
theorem read_qname_terminates :
    (∀ (buf : List Nat) (len pos : Nat), read_qname buf len pos ≠ none) ∧
    (∀ (buf : List Nat) (len pos j : Nat),
      read_qname buf len pos = some (RqOut.jumpsExceeded j) → j = 6) := by
  constructor
  · intro buf len pos
    apply read_qname_go_ne_none
    simp only [rq_fuel]
    omega
  · intro buf len pos j h
    exact read_qname_go_jumps_six buf len _ _ _ _ _ _ _ (by omega) h

/-- Witness for C4: on the concrete looping buffer the reader terminates, and
its JumpsExceeded failure indeed carries a jump count of 6. -/
theorem read_qname_terminates_witness :
    read_qname cyc_buf 512 0 ≠ none ∧ (6 : Nat) = 6 :=
  ⟨read_qname_terminates.1 cyc_buf 512 0,
    read_qname_terminates.2 cyc_buf 512 0 6 (by decide)⟩

/-- Counterexample for C4 as stated: on a cyclic pointer the reader fails
with JumpsExceeded only after performing 6 jumps, not within at most 5. -/
theorem read_qname_five_jump_claim_false :
    read_qname cyc_buf 512 0 = some (.jumpsExceeded 6) ∧ ¬ (6 ≤ 5) :=
  ⟨by decide, by decide⟩

/-! ## C9: write_qname label-length guard -/

/-- C9 (the code contradicts its own error message): a single 53-byte label
— well within the documented 63-byte limit — is rejected with LabelTooLong,
because the guard compares against 0x34 = 52 rather than 63. -/
theorem write_qname_rejects_53_byte_label :
    write_qname buf512 0 512 qname53 = .error .labelTooLong ∧
    (split_on_byte 46 qname53).all (fun lab => decide (lab.length ≤ 63)) = true :=
  ⟨by rfl, by decide⟩

/-! ## C3: request-id allocation -/

theorem server_after_allocs_curr (s : ServerState)
    (hlt : s.curr_req_id < 65536) :
    ∀ k, (server_after_allocs s k).curr_req_id = (s.curr_req_id + k) % 65536 := by
  intro k
  induction k with
  | zero => simp [server_after_allocs, Nat.mod_eq_of_lt hlt]
  | succ k ih =>
    simp only [server_after_allocs, next_req_id]
    rw [ih]
    omega

/-- C3 (amended): next_req_id is a wrapping 16-bit increment.  From a fresh
counter the first 65535 allocated ids are 1, ..., 65535 — all non-zero — but
the 65536th allocation wraps the counter around to 0, so upstream id 0 is
eventually allocated (the sentinel is not protected); an insert under an
existing id evicts the previous record (last-writer-wins). -/
theorem next_req_id_wraps_to_zero :
    (∀ s : ServerState, (next_req_id s).2 = (s.curr_req_id + 1) % 65536) ∧
    (∀ s : ServerState, s.curr_req_id = 0 → ∀ k, k < 65535 →
      (next_req_id (server_after_allocs s k)).2 = k + 1 ∧ k + 1 ≠ 0) ∧
    (∀ s : ServerState, s.curr_req_id = 0 →
      (next_req_id (server_after_allocs s 65535)).2 = 0) ∧
    (∀ (qs : Queries) (k : Nat) (v : QueryData),
      qfind k (qinsert k v qs) = some v) := by
  refine ⟨fun s => rfl, ?_, ?_, fun qs k v => qfind_qinsert_self k v qs⟩
  · intro s h0 k hk
    have hc := server_after_allocs_curr s (by omega) k
    rw [h0] at hc
    simp only [next_req_id, hc]
    constructor
    · omega
    · omega
  · intro s h0
    have hc := server_after_allocs_curr s (by omega) 65535
    rw [h0] at hc
    simp only [next_req_id, hc]

/-- Witness for C3: from a fresh server the first allocation yields id 1 (and
it is non-zero), and the 65536th allocation yields id 0. -/
theorem next_req_id_wraps_witness :
    ((next_req_id (server_after_allocs s_init 0)).2 = 1 ∧ (0 : Nat) + 1 ≠ 0) ∧
    (next_req_id (server_after_allocs s_init 65535)).2 = 0 :=
  ⟨next_req_id_wraps_to_zero.2.1 s_init rfl 0 (by decide),
    next_req_id_wraps_to_zero.2.2.1 s_init rfl⟩

/-- Counterexample for C3 as stated: the 65536th id allocated from a fresh
counter is 0, and a client query arriving with the counter at 65535 is keyed
under id 0 in the pending table — id 0 is not reserved. -/
theorem zero_id_allocated_counterexample :
    (next_req_id (server_after_allocs s_init 65535)).2 = 0 ∧
    qfind 0 (handle_query s65535 base_query).1.queries = some base_query := by
  constructor
  · have hc := server_after_allocs_curr s_init (by decide) 65535
    simp only [next_req_id, hc]
    rfl
  · decide

/-! ## C10: upstream handling ignores the datagram's source address -/

/-- C10: client_recv discards the sender address returned by recv_from, so
two upstream datagrams with identical payload but different senders produce
identical pending-table updates and identical outgoing packets — any host
that guesses an in-flight id can supply the accepted answer. -/
theorem client_recv_source_independent :
    ∀ (s : ServerState) (parsed : Option DnsPacket) (a1 a2 : SockAddr)
      (now : Nat),
      client_recv s parsed a1 now = client_recv s parsed a2 now := by
  intro s parsed a1 a2 now
  rfl

/-! ## C8: which question of the packet is answered -/

/-- C8 (amended): a parsed downstream packet with at least one question is
handled through a fresh QueryRecord that carries the packet's LAST question
(`Vec::pop`), together with the client id and address, parent 0 and hop
count 0; a packet with no questions is dropped without any action. -/
theorem server_recv_dns_uses_last_question :
    (∀ (s : ServerState) (p : DnsPacket) (src : SockAddr) (now : Nat)
        (q : DnsQuestion) (qs0 : List DnsQuestion),
      p.questions = qs0 ++ [q] →
      server_recv_dns s p src now =
        handle_query s (client_query_record p.header.id src q now)) ∧
    (∀ (s : ServerState) (p : DnsPacket) (src : SockAddr) (now : Nat),
      p.questions = [] → server_recv_dns s p src now = (s, [])) := by
  constructor
  · intro s p src now q qs0 hq
    simp only [server_recv_dns, hq, List.getLast?_concat]
  · intro s p src now hq
    simp only [server_recv_dns, hq, List.getLast?]

/-- Witness for C8: on the concrete two-question packet the record built
carries the second (last) question. -/
theorem server_recv_dns_uses_last_question_witness :
    server_recv_dns s_init pkt_two src0 100 =
      handle_query s_init (client_query_record 5 src0 q_last 100) :=
  server_recv_dns_uses_last_question.1 s_init pkt_two src0 100 q_last
    [q_first] rfl

/-- Counterexample for C8 as stated: for the two-question packet the pending
record stores the last question, not the first one. -/
theorem first_question_claim_false :
    (server_recv_dns s_init pkt_two src0 100).1.queries.map
        (fun p => p.2.question) = [q_last] ∧
    pkt_two.questions.head? = some q_first ∧ q_first ≠ q_last :=
  ⟨by decide, by decide, by decide⟩

/-! ## C6, C5, C7: the dynamic-update handler -/

theorem dyn_dns_body_ne_notDyn (key : List Nat) (hosts : List (String × Ipv4))
    (pkt : List Nat) (src : SockAddr) (now : Nat) :
    dyn_dns_body key hosts pkt src now ≠ .notDyn := by
  intro h
  simp only [dyn_dns_body] at h
  repeat' split at h
  all_goals simp_all

theorem dyn_dns_enter_body (key : List Nat) (hosts : List (String × Ipv4))
    (pkt : List Nat) (src : SockAddr) (now : Nat)
    (hlen : C_DYNDNS_MIN_LEN ≤ pkt.length) (hmag : pkt.take 4 = C_DNYDNS_MAGIC) :
    dyn_dns key hosts pkt src now = dyn_dns_body key hosts pkt src now := by
  unfold dyn_dns
  rw [if_neg]
  rintro (h | h)
  · omega
  · exact h hmag

theorem dyn_dns_body_few_tokens (key : List Nat) (hosts : List (String × Ipv4))
    (pkt : List Nat) (src : SockAddr) (now : Nat)
    (htok : (split_on_byte 32 pkt).length < C_DYNDNS_PARAM_COUNT) :
    dyn_dns_body key hosts pkt src now = .handled hosts [(error_bytes, src)] := by
  unfold dyn_dns_body
  rw [if_pos htok]

theorem dyn_dns_body_bad_digest (key : List Nat) (hosts : List (String × Ipv4))
    (pkt : List Nat) (src : SockAddr) (now : Nat)
    (htok : C_DYNDNS_PARAM_COUNT ≤ (split_on_byte 32 pkt).length)
    (hmd5 : check_dyndns_md5 (split_on_byte 32 pkt) key = false) :
    dyn_dns_body key hosts pkt src now = .handled hosts [(error_bytes, src)] := by
  unfold dyn_dns_body
  rw [if_neg (by omega), if_pos (by simp [hmd5])]

theorem dyn_dns_body_bad_time (key : List Nat) (hosts : List (String × Ipv4))
    (pkt : List Nat) (src : SockAddr) (now : Nat) (id_num : Nat)
    (htok : C_DYNDNS_PARAM_COUNT ≤ (split_on_byte 32 pkt).length)
    (hmd5 : check_dyndns_md5 (split_on_byte 32 pkt) key = true)
    (hid : parse_u64 (reenc ((split_on_byte 32 pkt).getD 2 [])) = some id_num)
    (htime : check_dyndns_time id_num now = false) :
    dyn_dns_body key hosts pkt src now = .handled hosts [(error_bytes, src)] := by
  unfold dyn_dns_body
  rw [if_neg (by omega), if_neg (by simp [hmd5]), hid]
  dsimp only
  rw [if_pos (by simp [htime])]

theorem dyn_dns_errored_shape (key : List Nat) (hosts hs : List (String × Ipv4))
    (pkt : List Nat) (src : SockAddr) (now : Nat)
    (rs : List (List Nat × SockAddr))
    (h : dyn_dns key hosts pkt src now = .errored hs rs) :
    hs = hosts ∧ rs = [] := by
  unfold dyn_dns at h
  split at h
  · simp at h
  · simp only [dyn_dns_body] at h
    repeat' split at h
    all_goals simp_all

/-- C6 (amended): a downstream datagram is treated as a dynamic-update packet
iff its length is at least C_DYNDNS_MIN_LEN — which equals 49, not 51 — and
its first 4 bytes are "kdns"; every other datagram falls through to DNS
parsing. -/
theorem dyn_dns_recognition_threshold :
    (∀ (key : List Nat) (hosts : List (String × Ipv4)) (pkt : List Nat)
        (src : SockAddr) (now : Nat),
      dyn_dns key hosts pkt src now = .notDyn ↔
        ¬ (C_DYNDNS_MIN_LEN ≤ pkt.length ∧ pkt.take 4 = C_DNYDNS_MAGIC)) ∧
    C_DYNDNS_MIN_LEN = 49 := by
  refine ⟨?_, rfl⟩
  intro key hosts pkt src now
  by_cases h : pkt.length < C_DYNDNS_MIN_LEN ∨ pkt.take 4 ≠ C_DNYDNS_MAGIC
  · unfold dyn_dns
    rw [if_pos h]
    constructor
    · rintro - ⟨hlen, hmag⟩
      rcases h with h | h
      · omega
      · exact h hmag
    · intro _
      rfl
  · push_neg at h
    rw [dyn_dns_enter_body key hosts pkt src now (by omega) h.2]
    constructor
    · intro hc
      exact absurd hc (dyn_dns_body_ne_notDyn key hosts pkt src now)
    · intro hn
      exact absurd ⟨by omega, h.2⟩ hn

/-- Counterexample for C6 as stated: a 49-byte datagram starting with "kdns"
is already treated as a dynamic-update packet, although 49 < 51. -/
theorem min_len_51_claim_false :
    dyn_dns (str_bytes "k") [] pkt49 src0 0 ≠ .notDyn ∧
    pkt49.length = 49 ∧ ¬ (51 ≤ pkt49.length) :=
  ⟨by decide, by decide, by decide⟩

/-- C5: a recognized dynamic-update packet whose digest token differs from
the lowercase hex MD5 of id ++ host ++ ip ++ key is answered with the literal
"error" and the host table is returned exactly as it was. -/
theorem dyn_dns_digest_mismatch_rejected :
    ∀ (key : List Nat) (hosts : List (String × Ipv4)) (pkt : List Nat)
      (src : SockAddr) (now : Nat),
      C_DYNDNS_MIN_LEN ≤ pkt.length →
      pkt.take 4 = C_DNYDNS_MAGIC →
      C_DYNDNS_PARAM_COUNT ≤ (split_on_byte 32 pkt).length →
      reenc ((split_on_byte 32 pkt).getD 1 []) ≠
        md5hex (reenc ((split_on_byte 32 pkt).getD 2 []) ++
          reenc ((split_on_byte 32 pkt).getD 3 []) ++
          reenc ((split_on_byte 32 pkt).getD 4 []) ++ key) →
      dyn_dns key hosts pkt src now = .handled hosts [(error_bytes, src)] := by
  intro key hosts pkt src now hlen hmag htok hdg
  rw [dyn_dns_enter_body key hosts pkt src now hlen hmag]
  apply dyn_dns_body_bad_digest key hosts pkt src now htok
  unfold check_dyndns_md5
  exact beq_eq_false_iff_ne.mpr hdg

set_option maxRecDepth 40000 in
/-- Witness for C5: the concrete packet with an all-zero digest token is
rejected with "error" and the (empty) host table is unchanged. -/
theorem dyn_dns_digest_mismatch_witness :
    dyn_dns (str_bytes "k") [] pkt_bad_digest src0 1672532200 =
      .handled [] [(error_bytes, src0)] :=
  dyn_dns_digest_mismatch_rejected (str_bytes "k") [] pkt_bad_digest src0
    1672532200 (by decide) (by decide) (by decide) (by decide)

/-- C7 (amended): a recognized dynamic-update datagram that the handler
completes (Ok) is never DNS-parsed, and the failures the handler itself
detects — too few tokens, digest mismatch, out-of-window id — are answered
with the literal "error"; but when the handler aborts with an internal error
(unparseable id token, or a bad ip literal after authentication) the Rust
caller only logs it: no "error" reply is sent and the same datagram IS
handed to the DNS parser. -/
theorem dyndns_path_dispatch :
    (∀ (s : ServerState) (pkt : List Nat) (src : SockAddr) (now : Nat)
        (hs : List (String × Ipv4)) (r : List (List Nat × SockAddr)),
      dyn_dns s.key s.hosts pkt src now = .handled hs r →
      server_recv_dyndns s pkt src now = ({ s with hosts := hs }, r, false)) ∧
    (∀ (key : List Nat) (hosts : List (String × Ipv4)) (pkt : List Nat)
        (src : SockAddr) (now : Nat),
      C_DYNDNS_MIN_LEN ≤ pkt.length → pkt.take 4 = C_DNYDNS_MAGIC →
      (split_on_byte 32 pkt).length < C_DYNDNS_PARAM_COUNT →
      dyn_dns key hosts pkt src now = .handled hosts [(error_bytes, src)]) ∧
    (∀ (key : List Nat) (hosts : List (String × Ipv4)) (pkt : List Nat)
        (src : SockAddr) (now : Nat),
      C_DYNDNS_MIN_LEN ≤ pkt.length → pkt.take 4 = C_DNYDNS_MAGIC →
      C_DYNDNS_PARAM_COUNT ≤ (split_on_byte 32 pkt).length →
      check_dyndns_md5 (split_on_byte 32 pkt) key = false →
      dyn_dns key hosts pkt src now = .handled hosts [(error_bytes, src)]) ∧
    (∀ (key : List Nat) (hosts : List (String × Ipv4)) (pkt : List Nat)
        (src : SockAddr) (now : Nat) (id_num : Nat),
      C_DYNDNS_MIN_LEN ≤ pkt.length → pkt.take 4 = C_DNYDNS_MAGIC →
      C_DYNDNS_PARAM_COUNT ≤ (split_on_byte 32 pkt).length →
      check_dyndns_md5 (split_on_byte 32 pkt) key = true →
      parse_u64 (reenc ((split_on_byte 32 pkt).getD 2 [])) = some id_num →
      check_dyndns_time id_num now = false →
      dyn_dns key hosts pkt src now = .handled hosts [(error_bytes, src)]) ∧
    (∀ (s : ServerState) (pkt : List Nat) (src : SockAddr) (now : Nat)
        (hs : List (String × Ipv4)) (r : List (List Nat × SockAddr)),
      dyn_dns s.key s.hosts pkt src now = .errored hs r →
      hs = s.hosts ∧ r = [] ∧
        server_recv_dyndns s pkt src now = ({ s with hosts := hs }, r, true)) := by
  refine ⟨?_, ?_, ?_, ?_, ?_⟩
  · intro s pkt src now hs r hdy
    simp only [server_recv_dyndns, hdy]
  · intro key hosts pkt src now hlen hmag htok
    rw [dyn_dns_enter_body key hosts pkt src now hlen hmag]
    exact dyn_dns_body_few_tokens key hosts pkt src now htok
  · intro key hosts pkt src now hlen hmag htok hmd5
    rw [dyn_dns_enter_body key hosts pkt src now hlen hmag]
    exact dyn_dns_body_bad_digest key hosts pkt src now htok hmd5
  · intro key hosts pkt src now id_num hlen hmag htok hmd5 hid htime
    rw [dyn_dns_enter_body key hosts pkt src now hlen hmag]
    exact dyn_dns_body_bad_time key hosts pkt src now id_num htok hmd5 hid htime
  · intro s pkt src now hs r hdy
    obtain ⟨h1, h2⟩ :=
      dyn_dns_errored_shape s.key s.hosts hs pkt src now r hdy
    refine ⟨h1, h2, ?_⟩
    simp only [server_recv_dyndns, hdy]

set_option maxRecDepth 40000 in
/-- Witness for C7: a recognized 49-byte datagram with a single token is
rejected with "error", and the concrete authenticated datagram with id token
"zz" makes the handler error out, upon which the dispatcher still attempts
DNS parsing. -/
theorem dyndns_path_dispatch_witness :
    dyn_dns (str_bytes "k") [] pkt49 src0 0 = .handled [] [(error_bytes, src0)] ∧
    ([] = s_init.hosts ∧ ([] : List (List Nat × SockAddr)) = [] ∧
      server_recv_dyndns s_init pkt_err_id src0 1672532200 =
        ({ s_init with hosts := [] }, [], true)) :=
  ⟨dyndns_path_dispatch.2.1 (str_bytes "k") [] pkt49 src0 0
      (by decide) (by decide) (by decide),
    dyndns_path_dispatch.2.2.2.2 s_init pkt_err_id src0 1672532200 [] []
      (by decide)⟩

set_option maxRecDepth 40000 in
/-- Counterexample for C7 as stated: the recognized datagram `pkt_err_id`
(correct digest, unparseable id token "zz") is handed to the DNS parser and
no "error" reply is sent. -/
theorem dyndns_error_falls_through_counterexample :
    C_DYNDNS_MIN_LEN ≤ pkt_err_id.length ∧
    pkt_err_id.take 4 = C_DNYDNS_MAGIC ∧
    (server_recv_dyndns s_init pkt_err_id src0 1672532200).2.2 = true ∧
    (server_recv_dyndns s_init pkt_err_id src0 1672532200).2.1 = [] :=
  ⟨by decide, by decide, by decide, by decide⟩

/-! ## C1: the pending-table cap -/

theorem eqs_length : ∀ n, (eqs n).length = n := by
  intro n
  induction n with
  | zero => rfl
  | succ n ih => simp [eqs, ih]

theorem qfind_eqs_none : ∀ n k, n < k → qfind k (eqs n) = none := by
  intro n
  induction n with
  | zero => intro k _; rfl
  | succ n ih =>
    intro k h
    rw [eqs, qfind_cons, if_neg (by omega)]
    exact ih k (by omega)

theorem qfind_eqs_some : ∀ n k, 1 ≤ k → k ≤ n → qfind k (eqs n) = some base_query := by
  intro n
  induction n with
  | zero => intro k h1 h2; omega
  | succ n ih =>
    intro k h1 h2
    rw [eqs, qfind_cons]
    by_cases hk : k = n + 1
    · rw [if_pos (by omega)]
    · rw [if_neg (by omega)]
      exact ih k h1 (by omega)

theorem qremove_one_eqs_length : ∀ n, 1 ≤ n → (qremove 1 (eqs n)).length = n - 1 := by
  intro n
  induction n with
  | zero => intro h; omega
  | succ n ih =>
    intro _
    rw [eqs, qremove_cons]
    by_cases hn : n = 0
    · subst hn
      rw [if_pos rfl]
      rfl
    · rw [if_neg (by omega), List.length_cons, ih (by omega)]
      omega

theorem fill_state_eq : ∀ n, n ≤ 4096 →
    fill_state n = ⟨eqs n, n, [], .v4 99, 60, str_bytes "k"⟩ := by
  intro n
  induction n with
  | zero => intro _; rfl
  | succ n ih =>
    intro hn
    have hlt : n < 4096 := by omega
    rw [fill_state, ih (by omega)]
    have hl : local_lookup ⟨eqs n, n, [], .v4 99, 60, str_bytes "k"⟩
        base_query.question.name = none := rfl
    simp only [handle_query, hl]
    rw [if_neg (by decide : ¬ (IpAddr.v4 99 = IpAddr.v4 0))]
    rw [if_pos (by simpa [MAX_QUERIES_LEN, eqs_length n] using hlt)]
    simp only [next_req_id]
    have hmod : (n + 1) % 65536 = n + 1 := Nat.mod_eq_of_lt (by omega)
    have habs : qfind ((n : Nat) + 1) (eqs n) = none :=
      qfind_eqs_none n (n + 1) (by omega)
    simp only [hmod]
    unfold qinsert
    rw [habs]
    rfl

theorem reachable_fill : ∀ n, Reachable (fill_state n) := by
  intro n
  induction n with
  | zero => exact Reachable.init (.v4 99) 60 (str_bytes "k")
  | succ n ih => exact Reachable.clientQuery 7 cl_addr ⟨"a.com", .A⟩ 100 ih

theorem handle_response_unresolved (s : ServerState) (resp : DnsPacket)
    (now : Nat) (q : QueryData) (nsName : String)
    (hq : qfind resp.header.id s.queries = some q)
    (hans : ¬ (resp.answers ≠ [] ∧ resp.header.rescode = .NOERROR))
    (hnx : resp.header.rescode ≠ .NXDOMAIN)
    (hcount : ¬ q.count > MAX_FORWARD_COUNT)
    (hres : get_resolved_ns resp q.question.name = none)
    (hunres : get_unresolved_ns resp q.question.name = some nsName) :
    (handle_response s resp now).1.queries =
      qinsert ((s.curr_req_id + 1) % 65536)
        ⟨0, ⟨.v4 0, 0⟩, ⟨nsName, .A⟩, resp.header.id, now + QUERY_TIMEOUT,
          q.count + 1⟩
        (qinsert resp.header.id q (qremove resp.header.id s.queries)) := by
  simp only [handle_response, hq, if_neg hans, if_neg hnx, if_neg hcount,
    hres, hunres, next_req_id]

theorem overflow_queries_length :
    (handle_response (fill_state 4096) resp_c1 100).1.queries.length = 4097 := by
  have hfe : fill_state 4096 = ⟨eqs 4096, 4096, [], .v4 99, 60, str_bytes "k"⟩ :=
    fill_state_eq 4096 (by omega)
  have hq : qfind resp_c1.header.id
      (⟨eqs 4096, 4096, [], .v4 99, 60, str_bytes "k"⟩ : ServerState).queries =
        some base_query :=
    qfind_eqs_some 4096 1 (by omega) (by omega)
  have h := handle_response_unresolved
    ⟨eqs 4096, 4096, [], .v4 99, 60, str_bytes "k"⟩ resp_c1 100 base_query
    "ns.x" hq (by decide) (by decide) (by decide) rfl rfl
  rw [hfe, h]
  dsimp only
  rw [show resp_c1.header.id = 1 from rfl]
  rw [show ((4096 : Nat) + 1) % 65536 = 4097 from by norm_num]
  have h1 : qfind (1 : Nat) (qremove 1 (eqs 4096)) = none :=
    qfind_qremove_self 1 (eqs 4096)
  have hlen1 : (qinsert 1 base_query (qremove 1 (eqs 4096))).length = 4096 := by
    rw [qinsert_length_absent 1 base_query _ h1, qremove_one_eqs_length 4096 (by omega)]
  have h3 : qfind (4097 : Nat) (qinsert 1 base_query (qremove 1 (eqs 4096))) = none := by
    rw [qfind_qinsert_ne 1 4097 base_query _ (by omega),
      qfind_qremove_ne 1 4097 (eqs 4096) (by omega)]
    exact qfind_eqs_none 4096 4097 (by omega)
  rw [qinsert_length_absent 4097 _ _ h3, hlen1]

/-- C1 (amended): handle_query enforces the cap — it inserts only while the
pending table holds fewer than MAX_QUERIES_LEN = 4096 entries, so it never
grows the table beyond 4096, and a client query arriving with the table full
(no local answer, upstream configured) is answered REFUSED without any state
change; the child-insert path of handle_response, however, performs no cap
check, and a reachable state with 4097 pending entries exists. -/
theorem handle_query_respects_cap :
    (∀ (s : ServerState) (q : QueryData),
      s.queries.length ≤ MAX_QUERIES_LEN →
      (handle_query s q).1.queries.length ≤ MAX_QUERIES_LEN) ∧
    (∀ (s : ServerState) (q : QueryData),
      s.queries.length = MAX_QUERIES_LEN →
      local_lookup s q.question.name = none →
      s.up_dns_addr ≠ .v4 0 →
      handle_query s q =
        (s, [.respond .REFUSED q.addr q.id q.question []])) := by
  constructor
  · intro s q hle
    simp only [handle_query]
    cases hl : local_lookup s q.question.name with
    | some rec => exact hle
    | none =>
      by_cases hup : s.up_dns_addr = .v4 0
      · rw [if_pos hup]; exact hle
      · rw [if_neg hup]
        by_cases hlen : s.queries.length < MAX_QUERIES_LEN
        · rw [if_pos hlen]
          simp only [next_req_id]
          calc (qinsert ((s.curr_req_id + 1) % 65536) q s.queries).length
              ≤ s.queries.length + 1 := qinsert_length_le _ _ _
            _ ≤ MAX_QUERIES_LEN := by
                simp only [MAX_QUERIES_LEN] at hlen ⊢; omega
        · rw [if_neg hlen]; exact hle
  · intro s q hfull hl hup
    simp only [handle_query, hl]
    rw [if_neg hup, if_neg (by omega : ¬ s.queries.length < MAX_QUERIES_LEN)]

/-- Witness for C1: a client query arriving at a concrete state with exactly
4096 pending entries is answered REFUSED and nothing is inserted. -/
theorem handle_query_respects_cap_witness :
    handle_query s_full base_query =
      (s_full, [.respond .REFUSED base_query.addr base_query.id
        base_query.question []]) :=
  handle_query_respects_cap.2 s_full base_query
    (by rw [show s_full.queries = List.replicate 4096 (1, base_query) from rfl,
          List.length_replicate]; rfl)
    rfl (by decide)

/-- Counterexample for C1 as stated: a reachable server state whose pending
table holds 4097 > MAX_QUERIES_LEN entries (4096 client queries followed by
one glue-less referral reply, whose child insert is not cap-checked). -/
theorem queries_cap_counterexample :
    Reachable (handle_response (fill_state 4096) resp_c1 100).1 ∧
    MAX_QUERIES_LEN <
      (handle_response (fill_state 4096) resp_c1 100).1.queries.length := by
  constructor
  · exact Reachable.upstreamResponse resp_c1 100 (reachable_fill 4096)
  · rw [overflow_queries_length]
    decide

/-! ## C2: hop limit and hop monotonicity -/

theorem handle_response_refused (s : ServerState) (resp : DnsPacket)
    (now : Nat) (q : QueryData)
    (hq : qfind resp.header.id s.queries = some q)
    (hcount : MAX_FORWARD_COUNT < q.count)
    (hans : ¬ (resp.answers ≠ [] ∧ resp.header.rescode = .NOERROR))
    (hnx : resp.header.rescode ≠ .NXDOMAIN) :
    handle_response s resp now =
      ({ s with queries := qremove resp.header.id s.queries },
        [.respond .REFUSED q.addr q.id q.question []]) := by
  simp only [handle_response, hq, if_neg hans, if_neg hnx,
    if_pos (show q.count > MAX_FORWARD_COUNT from hcount)]

theorem remove_recursive_query_subset (i k : Nat) (m : Queries) (r : QueryData)
    (h : qfind k (remove_recursive_query i m).2 = some r) :
    qfind k m = some r :=
  remove_rec_go_subset (m.length + 1) i m k r h

theorem handle_response_monotone (s : ServerState) (resp : DnsPacket)
    (now : Nat) (q : QueryData) (k : Nat) (r : QueryData)
    (hq : qfind resp.header.id s.queries = some q)
    (hk : qfind k (handle_response s resp now).1.queries = some r) :
    qfind k s.queries = some r ∨ q.count ≤ r.count := by
  simp only [handle_response, hq] at hk
  by_cases c1 : resp.answers ≠ [] ∧ resp.header.rescode = .NOERROR
  · rw [if_pos c1] at hk
    by_cases c2 : q.forword = 0
    · rw [if_pos c2] at hk
      exact Or.inl (qfind_qremove_some _ _ _ _ hk)
    · rw [if_neg c2] at hk
      cases hp : qfind q.forword (qremove resp.header.id s.queries) with
      | none =>
        rw [hp] at hk
        exact Or.inl (qfind_qremove_some _ _ _ _ hk)
      | some up =>
        rw [hp] at hk
        dsimp only at hk
        rcases ha : resp.answers with _ | ⟨a, rest⟩
        · exact absurd ha c1.1
        · rw [ha] at hk
          cases a with
          | A dom addr ttl =>
            dsimp only at hk
            exact Or.inl (qfind_qremove_some _ _ _ _ hk)
          | NS dom host ttl =>
            dsimp only at hk
            exact Or.inl (qfind_qremove_some _ _ _ _
              (remove_recursive_query_subset _ _ _ _ hk))
          | CNAME dom host ttl =>
            dsimp only at hk
            exact Or.inl (qfind_qremove_some _ _ _ _
              (remove_recursive_query_subset _ _ _ _ hk))
          | MX dom prio host ttl =>
            dsimp only at hk
            exact Or.inl (qfind_qremove_some _ _ _ _
              (remove_recursive_query_subset _ _ _ _ hk))
          | AAAA dom addr ttl =>
            dsimp only at hk
            exact Or.inl (qfind_qremove_some _ _ _ _
              (remove_recursive_query_subset _ _ _ _ hk))
          | UNKNOWN dom qt dl ttl =>
            dsimp only at hk
            exact Or.inl (qfind_qremove_some _ _ _ _
              (remove_recursive_query_subset _ _ _ _ hk))
  · rw [if_neg c1] at hk
    by_cases c3 : resp.header.rescode = .NXDOMAIN
    · rw [if_pos c3] at hk
      by_cases c2 : q.forword = 0
      · rw [if_pos c2] at hk
        exact Or.inl (qfind_qremove_some _ _ _ _ hk)
      · rw [if_neg c2] at hk
        cases hw : remove_recursive_query q.forword (qremove resp.header.id s.queries) with
        | mk top qs' =>
          rw [hw] at hk
          cases top with
          | some t =>
            simp only at hk
            have : qfind k qs' = some r := hk
            rw [show qs' = (remove_recursive_query q.forword
              (qremove resp.header.id s.queries)).2 from by rw [hw]] at this
            exact Or.inl (qfind_qremove_some _ _ _ _
              (remove_recursive_query_subset _ _ _ _ this))
          | none =>
            simp only at hk
            have : qfind k qs' = some r := hk
            rw [show qs' = (remove_recursive_query q.forword
              (qremove resp.header.id s.queries)).2 from by rw [hw]] at this
            exact Or.inl (qfind_qremove_some _ _ _ _
              (remove_recursive_query_subset _ _ _ _ this))
    · rw [if_neg c3] at hk
      by_cases c4 : q.count > MAX_FORWARD_COUNT
      · rw [if_pos c4] at hk
        exact Or.inl (qfind_qremove_some _ _ _ _ hk)
      · rw [if_neg c4] at hk
        cases hres : get_resolved_ns resp q.question.name with
        | some ns =>
          rw [hres] at hk
          by_cases hkid : resp.header.id = k
          · subst hkid
            rw [qfind_qinsert_self] at hk
            have : r = { q with count := q.count + 1 } := by
              injection hk.symm
            right
            rw [this]
            exact Nat.le_succ q.count
          · rw [qfind_qinsert_ne _ _ _ _ hkid] at hk
            exact Or.inl (qfind_qremove_some _ _ _ _ hk)
        | none =>
          rw [hres] at hk
          cases hunres : get_unresolved_ns resp q.question.name with
          | none =>
            rw [hunres] at hk
            exact Or.inl (qfind_qremove_some _ _ _ _ hk)
          | some nsName =>
            rw [hunres] at hk
            simp only [next_req_id] at hk
            by_cases hknew : (s.curr_req_id + 1) % 65536 = k
            · subst hknew
              rw [qfind_qinsert_self] at hk
              have : r = ⟨0, ⟨.v4 0, 0⟩, ⟨nsName, .A⟩, resp.header.id,
                  now + QUERY_TIMEOUT, q.count + 1⟩ := by
                injection hk.symm
              right
              rw [this]
              exact Nat.le_succ q.count
            · rw [qfind_qinsert_ne _ _ _ _ hknew] at hk
              by_cases hkid : resp.header.id = k
              · subst hkid
                rw [qfind_qinsert_self] at hk
                have : r = q := by injection hk.symm
                right
                rw [this]
              · rw [qfind_qinsert_ne _ _ _ _ hkid] at hk
                exact Or.inl (qfind_qremove_some _ _ _ _ hk)

/-- C2 (amended): an upstream reply for a pending record whose hop count
exceeds MAX_FORWARD_COUNT = 10, when the reply is neither a usable answer nor
NXDOMAIN, is answered REFUSED to the record's client address, with the record
dropped, nothing inserted and no upstream send in that call; and every record
present after any handle_response call was either already in the table or
carries a hop count at least that of the record the reply consumed — hop
counts never decrease along a chain's records as they are created.  (The
claim's global bound of 11 upstream sends per chain fails: the hop check runs
before the increment, so a chain reaches 12 sends — see the
counterexample.) -/
theorem hop_guard_and_monotonicity :
    (∀ (s : ServerState) (resp : DnsPacket) (now : Nat) (q : QueryData),
      qfind resp.header.id s.queries = some q →
      MAX_FORWARD_COUNT < q.count →
      ¬ (resp.answers ≠ [] ∧ resp.header.rescode = .NOERROR) →
      resp.header.rescode ≠ .NXDOMAIN →
      handle_response s resp now =
        ({ s with queries := qremove resp.header.id s.queries },
          [.respond .REFUSED q.addr q.id q.question []])) ∧
    (∀ (s : ServerState) (resp : DnsPacket) (now : Nat) (q : QueryData)
        (k : Nat) (r : QueryData),
      qfind resp.header.id s.queries = some q →
      qfind k (handle_response s resp now).1.queries = some r →
      qfind k s.queries = some r ∨ q.count ≤ r.count) :=
  ⟨handle_response_refused, handle_response_monotone⟩

/-- Witness for C2: the record with hop count 11 is answered REFUSED with no
upstream send, and after a resolved-NS referral on a fresh record the
re-inserted record's hop count (1) is at least the consumed record's (0). -/
theorem hop_guard_witness :
    (handle_response s_hot resp_fail 100 =
      ({ s_hot with queries := qremove 1 s_hot.queries },
        [.respond .REFUSED hot_query.addr hot_query.id hot_query.question []])) ∧
    (qfind 1 s_one.queries = some { base_query with count := 1 } ∨
      base_query.count ≤ { base_query with count := 1 }.count) :=
  ⟨hop_guard_and_monotonicity.1 s_hot resp_fail 100 hot_query rfl
      (by decide) (by decide) (by decide),
    hop_guard_and_monotonicity.2 s_one resp_res 100 base_query 1
      { base_query with count := 1 } rfl (by decide)⟩

/-- Counterexample for C2 as stated: the chain of the single client query
issues 12 upstream sends (hop counts 0 through 11 — the guard runs before
the increment) before terminating in REFUSED, exceeding the claimed bound
MAX_FORWARD_COUNT + 1 = 11. -/
theorem chain_twelve_sends_counterexample :
    (chain_trace 11).2 = 12 ∧
    ¬ ((chain_trace 11).2 ≤ MAX_FORWARD_COUNT + 1) ∧
    (chain_trace 11).1.queries.length = 1 ∧
    (handle_response (chain_trace 11).1 resp_res 100).2 =
      [.respond .REFUSED cl_addr 7 ⟨"a.com", .A⟩ []] ∧
    send_count (handle_response (chain_trace 11).1 resp_res 100).2 = 0 :=
  ⟨by decide, by decide, by decide, by decide, by decide⟩

end Minidns

